import Mathlib

/-!
Verification model of the Agri-Credit backend core pipeline
(`backend/src/services`): the Merkle tree builder, the fingerprint
(data hash) serialization, the rollup engine, the in-memory time-series
registry, and the batching queue.

Machine bytes are `Nat` values below 256; byte buffers are `List Nat`.
The keccak256 library hash is abstracted as explicit function parameters
(`bh` for byte-buffer hashing of internal nodes, `sh` for string hashing
of serialized readings); concrete injective stand-ins are supplied where
a theorem evaluates the model at specific inputs.
-/

namespace AgriCredit

/-! ## Hex encoding and decoding (Buffer.from(s, 'hex') / buf.toString('hex')) -/

/-- Hex digit character for a nibble, lowercase, as produced by
Node's Buffer.toString('hex'). -/
def hexDigitChar (n : Nat) : Char :=
  if n < 10 then Char.ofNat (48 + n) else Char.ofNat (87 + n)

/-- Lowercase hex character list of a byte buffer, two digits per byte. -/
def hexEncodeChars : List Nat → List Char
  | [] => []
  | b :: bs => hexDigitChar (b / 16) :: hexDigitChar (b % 16) :: hexEncodeChars bs

/-- Lowercase hex string of a byte buffer (buf.toString('hex')). -/
def hexEncode (bs : List Nat) : String := ⟨hexEncodeChars bs⟩

/-- Numeric value of one hex digit character (0-9, a-f, A-F), if any. -/
def hexDigitVal (c : Char) : Option Nat :=
  let n := c.toNat
  if 48 ≤ n ∧ n ≤ 57 then some (n - 48)
  else if 97 ≤ n ∧ n ≤ 102 then some (n - 87)
  else if 65 ≤ n ∧ n ≤ 70 then some (n - 55)
  else none

/-- Byte buffer decoded from hex characters, as Buffer.from(s, 'hex'):
complete leading pairs of valid hex digits are decoded; decoding stops at
the first invalid digit, and a trailing lone digit is dropped. -/
def hexDecode : List Char → List Nat
  | c1 :: c2 :: rest =>
    match hexDigitVal c1, hexDigitVal c2 with
    | some a, some b => (16 * a + b) :: hexDecode rest
    | _, _ => []
  | _ => []

/-- JavaScript s.replace('0x', ''): remove the first occurrence of the
substring "0x", anywhere in the string; leave the string unchanged when
the substring does not occur. -/
def dropFirst0x : List Char → List Char
  | '0' :: 'x' :: rest => rest
  | c :: rest => c :: dropFirst0x rest
  | [] => []

/-- Bytes a hex string denotes after the code's s.replace('0x','') strip. -/
def hexBytes (s : String) : List Nat := hexDecode (dropFirst0x s.data)

/-! ## Data model (types/index.ts) -/

/-- ProcessedSensorData: one reading with metadata. The readings mapping
is modelled as an association list in JavaScript-object insertion order
(JSON.stringify serializes keys in that order); measurement values are
modelled as integers. -/
structure ProcessedSensorData where
  id : String
  serialNumber : String
  sensorId : String
  timestamp : Int
  readings : List (String × Int)
  receivedAt : Int
  dataHash : String
deriving DecidableEq, Repr

/-- BatchRegistryEntry (types/index.ts). -/
structure BatchRegistryEntry where
  batchId : String
  merkleRoot : String
  txHash : String
  dataCount : Nat
  createdAt : Int
  submittedAt : Int
deriving DecidableEq, Repr

/-- DataBatch. The optional merkleRoot is a string with "" standing for
undefined (matching the code's truthiness checks); the optional
merkleProofs map is an Option over an association list. -/
structure DataBatch where
  batchId : String
  data : List ProcessedSensorData
  createdAt : Int
  merkleRoot : String := ""
  merkleProofs : Option (List (String × List String)) := none
deriving DecidableEq, Repr

/-! ## Fingerprint serialization (createDataHash in merkleTree.ts and
webhook routes; the two bodies are identical) -/

/-- JSON.stringify of the readings object: keys in insertion order,
no key sorting. -/
def serializeReadings (rs : List (String × Int)) : String :=
  "\x7b" ++ String.intercalate ","
    (rs.map (fun p => "\"" ++ p.1 ++ "\":" ++ toString p.2)) ++ "\x7d"

/-- JSON.stringify of the hashed object literal
(serialNumber, sensorId, timestamp, readings, in that key order). -/
def serializeData (d : ProcessedSensorData) : String :=
  "\x7b\"serialNumber\":\"" ++ d.serialNumber
    ++ "\",\"sensorId\":\"" ++ d.sensorId
    ++ "\",\"timestamp\":" ++ toString d.timestamp
    ++ ",\"readings\":" ++ serializeReadings d.readings ++ "\x7d"

/-- createDataHash: keccak256 over the JSON serialization, 0x-prefixed
hex. The string hash sh abstracts keccak256 on the serialized text. -/
def createDataHash (sh : String → List Nat) (d : ProcessedSensorData) : String :=
  "0x" ++ hexEncode (sh (serializeData d))

/-! ## Merkle tree builder (merkleTree.ts, via merkletreejs with
sortPairs: true, hashLeaves: false) -/

/-- Buffer.compare as a boolean less-or-equal: byte-lexicographic,
a strict prefix compares smaller. -/
def bufLe : List Nat → List Nat → Bool
  | [], _ => true
  | _ :: _, [] => false
  | a :: as, b :: bs => if a < b then true else if b < a then false else bufLe as bs

/-- Pair combination under sortPairs: sort the two siblings byte-wise,
then concatenate (the hash is applied by the caller). -/
def sortConcat (a b : List Nat) : List Nat :=
  if bufLe a b then a ++ b else b ++ a

/-- One level of tree construction: adjacent nodes are paired, sorted and
hashed; a trailing odd node is promoted unchanged. -/
def hashLevel (bh : List Nat → List Nat) : List (List Nat) → List (List Nat)
  | [] => []
  | [x] => [x]
  | x :: y :: rest => bh (sortConcat x y) :: hashLevel bh rest

/-- Layers of the tree, bottom (leaves) first, built until a level has at
most one node. Fuel bounds the iteration; the leaf count is always enough
fuel since every level at least halves. -/
def buildLayersAux (bh : List Nat → List Nat) : Nat → List (List Nat) → List (List (List Nat))
  | 0, ns => [ns]
  | fuel + 1, ns =>
    if ns.length ≤ 1 then [ns]
    else ns :: buildLayersAux bh fuel (hashLevel bh ns)

/-- All layers of the Merkle tree over the given leaves. -/
def buildLayers (bh : List Nat → List Nat) (leaves : List (List Nat)) : List (List (List Nat)) :=
  buildLayersAux bh leaves.length leaves

/-- Root bytes: the single node of the top layer; the empty buffer when
the tree has no leaves (merkletreejs getRoot on an empty tree). -/
def rootBytes (bh : List Nat → List Nat) (leaves : List (List Nat)) : List Nat :=
  (((buildLayers bh leaves).getLast?).getD []).headD []

/-- Index merkletreejs getProof resolves a leaf buffer to: the last index
whose leaf has equal bytes. -/
def lastIdxAux (x : List Nat) : List (List Nat) → Nat → Option Nat
  | [], _ => none
  | y :: ys, i =>
    match lastIdxAux x ys (i + 1) with
    | some j => some j
    | none => if y == x then some i else none

/-- Last index of a leaf buffer among the leaves, if present. -/
def lastIdxOf (x : List Nat) (l : List (List Nat)) : Option Nat := lastIdxAux x l 0

/-- Sibling walk of merkletreejs getProof: at each layer take the pair
partner (index-1 for a right node, index+1 for a left node) when it
exists, then move to the parent index. -/
def proofWalk : Nat → List (List (List Nat)) → List (List Nat)
  | _, [] => []
  | idx, layer :: rest =>
    let pairIdx := if idx % 2 == 1 then idx - 1 else idx + 1
    match layer.get? pairIdx with
    | some sib => sib :: proofWalk (idx / 2) rest
    | none => proofWalk (idx / 2) rest

/-- merkletreejs getProof(leaf): empty when the leaf is absent, else the
sibling walk from the leaf's (last matching) index. -/
def getProofBytes (bh : List Nat → List Nat) (leaves : List (List Nat)) (leaf : List Nat) : List (List Nat) :=
  match lastIdxOf leaf leaves with
  | none => []
  | some i => proofWalk i (buildLayers bh leaves)

/-- Fingerprint string used for a leaf: the precomputed dataHash when
present (non-empty string — JavaScript truthiness), else createDataHash. -/
def fingerprintOf (sh : String → List Nat) (d : ProcessedSensorData) : String :=
  if d.dataHash == "" then createDataHash sh d else d.dataHash

/-- Leaf bytes of one reading: the fingerprint hex-decoded after the
0x strip. -/
def leafOf (sh : String → List Nat) (d : ProcessedSensorData) : List Nat :=
  hexBytes (fingerprintOf sh d)

/-- Result of MerkleTreeBuilder.buildTree: 0x-prefixed root string, leaf
buffers, and the proofs map keyed by fingerprint (an association list
with JavaScript-Map set-overwrite semantics). -/
structure TreeResult where
  root : String
  leaves : List (List Nat)
  proofs : List (String × List String)
deriving DecidableEq, Repr

/-- Map.set: replace the value at the key in place, else append. -/
def setKey {β : Type} : List (String × β) → String → β → List (String × β)
  | [], key, val => [(key, val)]
  | (a, b) :: rest, key, val =>
    if a == key then (key, val) :: rest else (a, b) :: setKey rest key val

/-- MerkleTreeBuilder.buildTree: leaves from fingerprints, tree with
sorted pairs and unhashed leaves, root as 0x-hex, and a proof per leaf
keyed by its dataHash (or 0x-hex of the leaf when the dataHash is empty). -/
def buildTree (bh : List Nat → List Nat) (sh : String → List Nat)
    (data : List ProcessedSensorData) : TreeResult :=
  let leaves := data.map (leafOf sh)
  let root := "0x" ++ hexEncode (rootBytes bh leaves)
  let proofs := (data.zip leaves).foldl
    (fun acc pair =>
      let proof := (getProofBytes bh leaves pair.2).map (fun p => "0x" ++ hexEncode p)
      let key := if pair.1.dataHash == "" then "0x" ++ hexEncode pair.2 else pair.1.dataHash
      setKey acc key proof)
    []
  ⟨root, leaves, proofs⟩

/-- Running-hash fold of MerkleTree.verify as invoked by verifyProof:
the static verify is called without options, so sortPairs is off and the
reconstructed positions alternate right (even proof index, running hash
on the left) and left (odd proof index, proof element on the left). -/
def verifyFold (bh : List Nat → List Nat) : List Nat → Nat → List (List Nat) → List Nat
  | h, _, [] => h
  | h, i, p :: ps =>
    verifyFold bh (if i % 2 == 0 then bh (h ++ p) else bh (p ++ h)) (i + 1) ps

/-- MerkleTreeBuilder.verifyProof: hex-decode leaf, root and proof
elements (each after a 0x strip), fold the proof with parity-assigned
positions, and compare the result with the root bytes. -/
def verifyProof (bh : List Nat → List Nat)
    (leaf : String) (proof : List String) (root : String) : Bool :=
  verifyFold bh (hexBytes leaf) 0 (proof.map hexBytes) == hexBytes root

/-! ## In-memory time-series database (timeseries.ts) -/

/-- TimeSeriesDB state: batch registry, raw data and proofs keyed by
batch id (JavaScript Maps as association lists in insertion order), and
the running data-point total. -/
structure TimeSeriesDB where
  batches : List (String × BatchRegistryEntry)
  batchData : List (String × List ProcessedSensorData)
  proofs : List (String × List (String × List String))
  totalDataPoints : Nat
deriving DecidableEq, Repr

/-- Fresh database. -/
def emptyDB : TimeSeriesDB := ⟨[], [], [], 0⟩

/-- TimeSeriesDB.saveBatch: store entry, raw data and (when given) the
proof map, and bump the data-point total. -/
def saveBatch (entry : BatchRegistryEntry) (data : List ProcessedSensorData)
    (merkleProofs : Option (List (String × List String))) (db : TimeSeriesDB) : TimeSeriesDB :=
  { batches := setKey db.batches entry.batchId entry
    batchData := setKey db.batchData entry.batchId data
    proofs := match merkleProofs with
      | some m => setKey db.proofs entry.batchId m
      | none => db.proofs
    totalDataPoints := db.totalDataPoints + data.length }

/-- TimeSeriesDB.updateBatchTx: when the entry exists, set its txHash to
the given value and stamp submittedAt; a no-op for an unknown batch id. -/
def updateBatchTx (batchId txHash : String) (now : Int) (db : TimeSeriesDB) : TimeSeriesDB :=
  match List.lookup batchId db.batches with
  | some e =>
    { db with batches := setKey db.batches batchId { e with txHash := txHash, submittedAt := now } }
  | none => db

/-- TimeSeriesDB.getBatch (null becomes none). -/
def getBatch (batchId : String) (db : TimeSeriesDB) : Option BatchRegistryEntry :=
  List.lookup batchId db.batches

/-- TimeSeriesDB.getBatchData. -/
def getBatchData (batchId : String) (db : TimeSeriesDB) : Option (List ProcessedSensorData) :=
  List.lookup batchId db.batchData

/-- Stable insertion step for the model of JavaScript's stable
Array.prototype.sort under a boolean comparator-derived order. -/
def insertSorted {α : Type} (le : α → α → Bool) (x : α) : List α → List α
  | [] => [x]
  | y :: ys => if le x y then x :: y :: ys else y :: insertSorted le x ys

/-- Stable sort (insertion sort) modelling Array.prototype.sort with a
numeric comparator; le a b means the comparator puts a at-or-before b. -/
def sortBy {α : Type} (le : α → α → Bool) : List α → List α
  | [] => []
  | x :: xs => insertSorted le x (sortBy le xs)

/-- TimeSeriesDB.listBatches: all entries sorted newest-first by
createdAt, then slice(offset, offset + limit). -/
def listBatches (limit offset : Nat) (db : TimeSeriesDB) : List BatchRegistryEntry :=
  (((sortBy (fun a b => decide (b.createdAt ≤ a.createdAt)) (db.batches.map Prod.snd)).drop offset).take limit)

/-- All stored readings in map-iteration (insertion) order. -/
def allReadings (db : TimeSeriesDB) : List ProcessedSensorData :=
  (db.batchData.map Prod.snd).flatten

/-- TimeSeriesDB.queryBySensor: readings with the sensor id, sorted by
timestamp descending. -/
def queryBySensor (sensorId : String) (db : TimeSeriesDB) : List ProcessedSensorData :=
  sortBy (fun a b => decide (b.timestamp ≤ a.timestamp))
    ((allReadings db).filter (fun item => item.sensorId == sensorId))

/-- TimeSeriesDB.queryByTimeRange: readings with startTime ≤ timestamp ≤
endTime, sorted by timestamp ascending. -/
def queryByTimeRange (startTime endTime : Int) (db : TimeSeriesDB) : List ProcessedSensorData :=
  sortBy (fun a b => decide (a.timestamp ≤ b.timestamp))
    ((allReadings db).filter
      (fun item => decide (startTime ≤ item.timestamp) && decide (item.timestamp ≤ endTime)))

/-! ## Ledger relayer (services/blockchain/relayer.ts)

SepoliaRelayer wraps ethers.js. The ethers library is external, so its
network round trips (getNetwork, estimateGas, registerDataBatch, wait)
and its ethers.id hash enter the model as parameters, like keccak256
does elsewhere; the relayer's own control flow — the lazy initialize,
the simulation branch when no contract or wallet object exists, and the
catch that rethrows a failed submission to the caller — is embedded
below. -/

/-- SepoliaRelayer state as observed by submitMerkleRoot: whether
initialize has completed, and whether the ethers wallet and contract
objects are non-null (both exist only when a private key and a usable
contract address are configured and initialization succeeded). -/
structure RelayerState where
  isInitialized : Bool := false
  hasWallet : Bool := false
  hasContract : Bool := false
deriving DecidableEq, Repr

/-- SepoliaRelayer.simulateTransaction: a fake transaction hash,
ethers.id of the template string batchId-merkleRoot-Date.now(); the
external ethers.id hash is the parameter eid and the clock reading is
nowMs. Never throws. -/
def simulateTransaction (eid : String → String) (merkleRoot batchId : String)
    (nowMs : Int) : String :=
  eid (batchId ++ "-" ++ merkleRoot ++ "-" ++ toString nowMs)

/-- SepoliaRelayer.submitMerkleRoot on the state left by the lazy
initialize (the method first runs initialize when isInitialized is
false; rs is the state after that point): with no contract or no wallet
it simulates the transaction and returns the fake hash without touching
the network; otherwise the ethers round trip in the try block either
confirms — tx.hash is returned — or raises, and the catch rethrows to
the caller. The network reply is the parameter netReply: some hash for a
confirmed transaction, none when the round trip raises; the returned
none models the rethrown error reaching the caller. -/
def relayerSubmitMerkleRoot (rs : RelayerState) (eid : String → String)
    (netReply : Option String) (merkleRoot batchId : String) (nowMs : Int) :
    Option String :=
  if !rs.hasContract || !rs.hasWallet then
    some (simulateTransaction eid merkleRoot batchId nowMs)
  else
    netReply

/-! ## Rollup engine (rollupEngine.ts) -/

/-- RollupEngine state: the single-in-flight submission flag, the
pending-submission backlog, scheduled setTimeout drain callbacks (each
holding its batch), and the database. -/
structure EngineState where
  isSubmitting : Bool := false
  pendingBatches : List DataBatch := []
  scheduled : List DataBatch := []
  db : TimeSeriesDB := emptyDB
deriving DecidableEq, Repr

/-- Steps 1-2 of processRollup: build the tree and attach root and
proofs to the batch. -/
def attachTree (bh : List Nat → List Nat) (sh : String → List Nat) (b : DataBatch) : DataBatch :=
  let t := buildTree bh sh b.data
  { b with merkleRoot := t.root, merkleProofs := some t.proofs }

/-- Registry entry RollupEngine.storeBatch builds: empty txHash (updated
only after submission) and zero submittedAt. -/
def entryOf (b : DataBatch) : BatchRegistryEntry :=
  ⟨b.batchId, b.merkleRoot, "", b.data.length, b.createdAt, 0⟩

/-- RollupEngine.storeBatch: save the entry, the raw data and the
attached proofs. -/
def storeBatch (b : DataBatch) (db : TimeSeriesDB) : TimeSeriesDB :=
  saveBatch (entryOf b) b.data b.merkleProofs db

/-- Backlog drain in submitToBlockchain's finally block: shift the first
pending batch, if any, into a scheduled setTimeout submission. -/
def drainOne (s : EngineState) : EngineState :=
  match s.pendingBatches with
  | [] => s
  | b :: rest => { s with pendingBatches := rest, scheduled := s.scheduled ++ [b] }

/-- Entry of submitToBlockchain up to the relayer await: with a
submission already in flight the batch is appended to the backlog and
the call returns null; otherwise the in-flight flag is taken. The Bool
reports whether the submission became in flight. -/
def submitBegin (b : DataBatch) (s : EngineState) : Bool × EngineState :=
  if s.isSubmitting then (false, { s with pendingBatches := s.pendingBatches ++ [b] })
  else (true, { s with isSubmitting := true })

/-- Completion of an in-flight submitToBlockchain: inside the try, a
missing merkleRoot throws (caught to a null result) and otherwise
sepoliaRelayer.submitMerkleRoot is awaited — a returned hash (real or
simulated) becomes the result, while a relayer throw is caught to a null
result; the finally block releases the flag and schedules one backlog
drain. The relayer state, the ethers.id hash, the network reply and the
simulation clock reading are threaded through to the embedded relayer. -/
def submitEnd (rs : RelayerState) (eid : String → String) (netReply : Option String)
    (nowMs : Int) (b : DataBatch) (s : EngineState) :
    Option String × EngineState :=
  let result :=
    if b.merkleRoot == "" then none
    else relayerSubmitMerkleRoot rs eid netReply b.merkleRoot b.batchId nowMs
  (result, drainOne { s with isSubmitting := false })

/-- RollupEngine.submitToBlockchain, run to completion in one step. -/
def submitToBlockchain (rs : RelayerState) (eid : String → String)
    (netReply : Option String) (nowMs : Int) (b : DataBatch) (s : EngineState) :
    Option String × EngineState :=
  match submitBegin b s with
  | (false, s1) => (none, s1)
  | (true, s1) => submitEnd rs eid netReply nowMs b s1

/-- RollupEngine.processRollup, run to completion in one step: build and
attach the tree, store the batch, submit, and on a non-null result
update the registry entry's transaction hash. No step of this model
throws, so the catch block (which would push the batch to the backlog)
is never reached; in particular a rethrown relayer failure is absorbed
inside submitToBlockchain as a null result. -/
def processRollup (bh : List Nat → List Nat) (sh : String → List Nat)
    (rs : RelayerState) (eid : String → String) (netReply : Option String)
    (nowMs : Int) (now : Int) (b : DataBatch) (s : EngineState) : EngineState :=
  let b1 := attachTree bh sh b
  let s1 := { s with db := storeBatch b1 s.db }
  match submitToBlockchain rs eid netReply nowMs b1 s1 with
  | (some tx, s2) => { s2 with db := updateBatchTx b1.batchId tx now s2.db }
  | (none, s2) => s2

/-! ## Batching queue (memoryQueue.ts) -/

/-- QueueItem. -/
structure QueueItem where
  id : String
  data : ProcessedSensorData
  addedAt : Int
deriving DecidableEq, Repr

/-- MemoryQueue state; emitted collects the batch-ready event payloads
in order. -/
structure QueueState where
  queue : List QueueItem
  batchSize : Nat
  emitted : List (List ProcessedSensorData)
deriving DecidableEq, Repr

/-- MemoryQueue.flush: a no-op on an empty queue, else splice off the
first batchSize items and emit their data as one batch. -/
def flush (s : QueueState) : QueueState :=
  if s.queue.length == 0 then s
  else
    { s with
      queue := s.queue.drop s.batchSize
      emitted := s.emitted ++ [(s.queue.take s.batchSize).map (fun item => item.data)] }

/-- MemoryQueue.enqueue: append the wrapped item, then flush if the
queue length has reached batchSize. -/
def enqueue (d : ProcessedSensorData) (now : Int) (s : QueueState) : QueueState :=
  let s1 := { s with queue := s.queue ++ [⟨d.id, d, now⟩] }
  if s1.queue.length ≥ s1.batchSize then flush s1 else s1

/-- Sequence of enqueue calls with their arrival times. -/
def enqueueAll (ds : List (ProcessedSensorData × Int)) (s : QueueState) : QueueState :=
  ds.foldl (fun st p => enqueue p.1 p.2 st) s

/-! ## Interleaving of two rollups (single-in-flight scenario)

Submitting a batch B while batch A's relayer call is awaiting is the one
interleaving the engine's isSubmitting flag exists for. The phases below
replay that schedule: phase 1 runs A's processRollup up to the relayer
await (tree, store, submitBegin); phase 2 runs B's entire processRollup
while A is in flight; phase 3 resumes A at the relayer's reply
(submitEnd, then the tx update in processRollup); phase 4 runs the
setTimeout callback scheduled by phase 3's drain, which calls
submitToBlockchain on the drained batch and discards its result. -/

/-- Phase 1: batch A is built and stored, and its submission is taken in
flight, starting from a fresh engine. -/
def inflightPhase1 (bh : List Nat → List Nat) (sh : String → List Nat)
    (A : DataBatch) : EngineState :=
  let A1 := attachTree bh sh A
  (submitBegin A1 { db := storeBatch A1 emptyDB }).2

/-- Phase 2: batch B's processRollup runs to completion while A's
submission is outstanding (its submission never reaches the relayer — it
is queued at submitBegin — so the relayer arguments are inert here). -/
def inflightPhase2 (bh : List Nat → List Nat) (sh : String → List Nat)
    (rs : RelayerState) (eid : String → String) (A B : DataBatch)
    (netB : Option String) (nowMsB : Int) (nowB : Int) : EngineState :=
  processRollup bh sh rs eid netB nowMsB nowB B (inflightPhase1 bh sh A)

/-- Phase 3: A's relayer round trip completes with the network reply
netA; submitEnd releases the flag and drains one backlog entry into a
scheduled callback, and — when the relayer returned a hash — A's
processRollup updates A's registry entry with it. -/
def inflightPhase3 (bh : List Nat → List Nat) (sh : String → List Nat)
    (rs : RelayerState) (eid : String → String) (A B : DataBatch)
    (netB : Option String) (nowMsB : Int) (nowB : Int)
    (netA : Option String) (nowMsA : Int) (nowA : Int) : EngineState :=
  let A1 := attachTree bh sh A
  match submitEnd rs eid netA nowMsA A1
      (inflightPhase2 bh sh rs eid A B netB nowMsB nowB) with
  | (some tx, s) => { s with db := updateBatchTx A1.batchId tx nowA s.db }
  | (none, s) => s

/-- Phase 4: the scheduled callback fires and submits the drained batch
with network reply netB2; the setTimeout closure ignores
submitToBlockchain's return value, so the returned transaction reference
is dropped. -/
def inflightPhase4 (bh : List Nat → List Nat) (sh : String → List Nat)
    (rs : RelayerState) (eid : String → String) (A B : DataBatch)
    (netB : Option String) (nowMsB : Int) (nowB : Int)
    (netA : Option String) (nowMsA : Int) (nowA : Int)
    (netB2 : Option String) (nowMsB2 : Int) : EngineState :=
  let s3 := inflightPhase3 bh sh rs eid A B netB nowMsB nowB netA nowMsA nowA
  match s3.scheduled with
  | [] => s3
  | b :: _ => (submitToBlockchain rs eid netB2 nowMsB2 b s3).2

/-! ## Concrete instances for evaluating the model

keccak256 itself is an external library function; these stand-ins keep
its two properties the pipeline relies on — determinism and freedom from
collisions (both are injective) — while staying executable, so theorems
about specific inputs evaluate inside the kernel. -/

/-- Concrete injective byte hash standing in for keccak256 on buffers:
outputs are valid byte lists whenever inputs are. -/
def mByteHash (l : List Nat) : List Nat := 1 :: l

/-- Concrete injective stand-in for ethers.id (keccak256 of the UTF-8
text, 0x-prefixed hex). -/
def mEthersId (s : String) : String := "0x" ++ hexEncode (s.data.map Char.toNat)

/-- Relayer in ready mode: initialized with a wallet and a deployed
contract, so submitMerkleRoot takes the real (non-simulated) path and a
failed network round trip is rethrown to the engine. -/
def readyRelayer : RelayerState := ⟨true, true, true⟩

/-- Concrete injective string hash standing in for keccak256 on
serialized text. -/
def mStrHash (s : String) : List Nat := s.data.map Char.toNat

/-- Sample reading with fingerprint 0x02. -/
def cexA : ProcessedSensorData :=
  ⟨"i0", "SN", "S1", 10, [("temperature", 1)], 10, "0x02"⟩

/-- Sample reading with fingerprint 0x01. -/
def cexB : ProcessedSensorData :=
  ⟨"i1", "SN", "S2", 11, [("temperature", 2)], 11, "0x01"⟩

/-- Sample reading whose readings map inserts temperature before
humidity. -/
def cexTH : ProcessedSensorData :=
  ⟨"i2", "SN", "S1", 10, [("temperature", 1), ("humidity", 2)], 10, ""⟩

/-- The same identity, timestamp and readings mapping as cexTH, with
humidity inserted before temperature. -/
def cexHT : ProcessedSensorData :=
  ⟨"i2", "SN", "S1", 10, [("humidity", 2), ("temperature", 1)], 10, ""⟩

/-- Sample one-reading batch. -/
def cexBatch : DataBatch := { batchId := "b1", data := [cexA], createdAt := 100 }

/-- Sample batch A for the interleaving scenario. -/
def batchA : DataBatch := { batchId := "bA", data := [cexA], createdAt := 50 }

/-- Sample batch B for the interleaving scenario. -/
def batchB : DataBatch := { batchId := "bB", data := [cexB], createdAt := 60 }

/-- Sample registry entry. -/
def cexEntry : BatchRegistryEntry := ⟨"b1", "0xaa", "", 1, 100, 0⟩

/-! ## Helper lemmas -/

theorem data_append (a b : String) : (a ++ b).data = a.data ++ b.data := by
  cases a; cases b; rfl

theorem hexDigitVal_hexDigitChar : ∀ n, n < 16 → hexDigitVal (hexDigitChar n) = some n := by
  decide

theorem hexDigitVal_lt {c : Char} {a : Nat} (h : hexDigitVal c = some a) : a < 16 := by
  have h' : (if 48 ≤ c.toNat ∧ c.toNat ≤ 57 then some (c.toNat - 48)
      else if 97 ≤ c.toNat ∧ c.toNat ≤ 102 then some (c.toNat - 87)
      else if 65 ≤ c.toNat ∧ c.toNat ≤ 70 then some (c.toNat - 55)
      else none) = some a := h
  split_ifs at h' with h1 h2 h3 <;> simp only [Option.some.injEq] at h' <;> omega

theorem mem_hexDecode_lt : ∀ (cs : List Char), ∀ b ∈ hexDecode cs, b < 256
  | [] => by simp [hexDecode]
  | [c] => by simp [hexDecode]
  | c1 :: c2 :: rest => by
    intro b hb
    unfold hexDecode at hb
    cases h1 : hexDigitVal c1 with
    | none => simp [h1] at hb
    | some a =>
      cases h2 : hexDigitVal c2 with
      | none => simp [h1, h2] at hb
      | some v =>
        simp only [h1, h2, List.mem_cons] at hb
        rcases hb with hb | hb
        · have ha := hexDigitVal_lt h1
          have hv := hexDigitVal_lt h2
          omega
        · exact mem_hexDecode_lt rest b hb

theorem hexBytes_lt (s : String) : ∀ b ∈ hexBytes s, b < 256 :=
  mem_hexDecode_lt _

theorem hexDecode_hexEncodeChars : ∀ (bs : List Nat), (∀ b ∈ bs, b < 256) →
    hexDecode (hexEncodeChars bs) = bs := by
  intro bs
  induction bs with
  | nil => intro _; rfl
  | cons b bs ih =>
    intro h
    have hb : b < 256 := h b (by simp)
    have hdiv : b / 16 < 16 := by omega
    have hmod : b % 16 < 16 := by omega
    unfold hexEncodeChars hexDecode
    rw [hexDigitVal_hexDigitChar _ hdiv, hexDigitVal_hexDigitChar _ hmod]
    rw [ih (fun x hx => h x (by simp [hx]))]
    show (16 * (b / 16) + b % 16) :: bs = b :: bs
    rw [Nat.div_add_mod]

theorem hexBytes_0x_hexEncode (bs : List Nat) (h : ∀ b ∈ bs, b < 256) :
    hexBytes ("0x" ++ hexEncode bs) = bs := by
  unfold hexBytes hexEncode
  rw [data_append]
  show hexDecode (dropFirst0x ('0' :: 'x' :: hexEncodeChars bs)) = bs
  rw [show dropFirst0x ('0' :: 'x' :: hexEncodeChars bs) = hexEncodeChars bs from rfl]
  exact hexDecode_hexEncodeChars bs h

theorem append_0x_ne_empty (s : String) : ("0x" ++ s) ≠ "" := by
  intro h
  have := congrArg String.data h
  rw [data_append] at this
  simp at this

theorem lookup_setKey_self {β : Type} (l : List (String × β)) (k : String) (v : β) :
    List.lookup k (setKey l k v) = some v := by
  induction l with
  | nil => simp [setKey, List.lookup]
  | cons p rest ih =>
    obtain ⟨a, b⟩ := p
    unfold setKey
    by_cases hak : a = k
    · simp [hak, List.lookup]
    · simp only [beq_eq_false_iff_ne.mpr hak, if_false, List.lookup]
      rw [beq_eq_false_iff_ne.mpr (fun h => hak h.symm)]
      exact ih

theorem lookup_setKey_ne {β : Type} (l : List (String × β)) (k k' : String) (v : β)
    (h : k' ≠ k) : List.lookup k' (setKey l k v) = List.lookup k' l := by
  induction l with
  | nil => simp [setKey, List.lookup, beq_eq_false_iff_ne.mpr h]
  | cons p rest ih =>
    obtain ⟨a, b⟩ := p
    unfold setKey
    by_cases hak : a = k
    · subst hak
      simp [List.lookup, beq_eq_false_iff_ne.mpr h]
    · simp only [beq_eq_false_iff_ne.mpr hak, if_false, List.lookup]
      by_cases hka : k' = a
      · simp [hka]
      · rw [beq_eq_false_iff_ne.mpr hka]
        exact ih

theorem insertSorted_perm {α : Type} (le : α → α → Bool) (x : α) :
    ∀ l : List α, (insertSorted le x l).Perm (x :: l)
  | [] => List.Perm.refl _
  | y :: ys => by
    unfold insertSorted
    by_cases h : le x y = true
    · simp [h]
    · simp only [h, if_false]
      exact ((insertSorted_perm le x ys).cons y).trans (List.Perm.swap x y ys)

theorem sortBy_perm {α : Type} (le : α → α → Bool) :
    ∀ l : List α, (sortBy le l).Perm l
  | [] => List.Perm.refl _
  | x :: xs =>
    (insertSorted_perm le x (sortBy le xs)).trans ((sortBy_perm le xs).cons x)

theorem insertSorted_pairwise {α : Type} (le : α → α → Bool)
    (htrans : ∀ a b c, le a b = true → le b c = true → le a c = true)
    (htot : ∀ a b, le a b = true ∨ le b a = true) (x : α) :
    ∀ l : List α, l.Pairwise (fun a b => le a b = true) →
      (insertSorted le x l).Pairwise (fun a b => le a b = true)
  | [], _ => by simp [insertSorted]
  | y :: ys, h => by
    rw [List.pairwise_cons] at h
    obtain ⟨hy, hys⟩ := h
    unfold insertSorted
    by_cases hxy : le x y = true
    · simp only [hxy, if_true]
      refine List.Pairwise.cons ?_ (List.Pairwise.cons hy hys)
      intro z hz
      rcases List.mem_cons.mp hz with rfl | hz
      · exact hxy
      · exact htrans x y z hxy (hy z hz)
    · simp only [hxy, if_false]
      refine List.Pairwise.cons ?_ (insertSorted_pairwise le htrans htot x ys hys)
      intro z hz
      rcases List.mem_cons.mp ((insertSorted_perm le x ys).mem_iff.mp hz) with hzx | hz
      · rcases htot x y with hc | hc
        · exact absurd hc hxy
        · rw [hzx]
          exact hc
      · exact hy z hz

theorem sortBy_pairwise {α : Type} (le : α → α → Bool)
    (htrans : ∀ a b c, le a b = true → le b c = true → le a c = true)
    (htot : ∀ a b, le a b = true ∨ le b a = true) :
    ∀ l : List α, (sortBy le l).Pairwise (fun a b => le a b = true)
  | [] => List.Pairwise.nil
  | x :: xs =>
    insertSorted_pairwise le htrans htot x (sortBy le xs) (sortBy_pairwise le htrans htot xs)

theorem enqueue_no_flush (d : ProcessedSensorData) (now : Int) (Q : List QueueItem)
    (N : Nat) (E : List (List ProcessedSensorData)) (h : Q.length + 1 < N) :
    enqueue d now ⟨Q, N, E⟩ = ⟨Q ++ [(⟨d.id, d, now⟩ : QueueItem)], N, E⟩ := by
  show (if (Q ++ [(⟨d.id, d, now⟩ : QueueItem)]).length ≥ N
      then flush ⟨Q ++ [(⟨d.id, d, now⟩ : QueueItem)], N, E⟩
      else ⟨Q ++ [(⟨d.id, d, now⟩ : QueueItem)], N, E⟩) =
    ⟨Q ++ [(⟨d.id, d, now⟩ : QueueItem)], N, E⟩
  rw [if_neg (by simp; omega)]

theorem enqueue_flush_exact (d : ProcessedSensorData) (now : Int) (Q : List QueueItem)
    (N : Nat) (E : List (List ProcessedSensorData)) (h : Q.length + 1 = N) :
    enqueue d now ⟨Q, N, E⟩ =
      ⟨[], N, E ++ [(Q ++ [(⟨d.id, d, now⟩ : QueueItem)]).map (fun it => it.data)]⟩ := by
  have hlen : (Q ++ [(⟨d.id, d, now⟩ : QueueItem)]).length = N := by simp; omega
  show (if (Q ++ [(⟨d.id, d, now⟩ : QueueItem)]).length ≥ N
      then flush ⟨Q ++ [(⟨d.id, d, now⟩ : QueueItem)], N, E⟩
      else ⟨Q ++ [(⟨d.id, d, now⟩ : QueueItem)], N, E⟩) =
    ⟨[], N, E ++ [(Q ++ [(⟨d.id, d, now⟩ : QueueItem)]).map (fun it => it.data)]⟩
  rw [if_pos (by omega)]
  show (if ((Q ++ [(⟨d.id, d, now⟩ : QueueItem)]).length == 0) = true
      then (⟨Q ++ [(⟨d.id, d, now⟩ : QueueItem)], N, E⟩ : QueueState)
      else ⟨(Q ++ [(⟨d.id, d, now⟩ : QueueItem)]).drop N, N,
        E ++ [((Q ++ [(⟨d.id, d, now⟩ : QueueItem)]).take N).map (fun it => it.data)]⟩) =
    ⟨[], N, E ++ [(Q ++ [(⟨d.id, d, now⟩ : QueueItem)]).map (fun it => it.data)]⟩
  rw [if_neg (by simp)]
  rw [List.drop_of_length_le (le_of_eq hlen), List.take_of_length_le (le_of_eq hlen)]

theorem enqueueAll_fill :
    ∀ (ds : List (ProcessedSensorData × Int)) (q : List QueueItem) (N : Nat)
      (e : List (List ProcessedSensorData)),
      ds ≠ [] → q.length + ds.length = N →
      enqueueAll ds ⟨q, N, e⟩ =
        ⟨[], N, e ++ [q.map (fun it => it.data) ++ ds.map Prod.fst]⟩
  | [], _, _, _, hne, _ => absurd rfl hne
  | [p], q, N, e, _, hlen => by
    simp only [List.length_cons, List.length_nil] at hlen
    rw [show enqueueAll [p] (⟨q, N, e⟩ : QueueState) = enqueue p.1 p.2 ⟨q, N, e⟩ from rfl]
    rw [enqueue_flush_exact p.1 p.2 q N e (by omega)]
    simp
  | p :: p2 :: rest, q, N, e, _, hlen => by
    simp only [List.length_cons] at hlen
    rw [show enqueueAll (p :: p2 :: rest) (⟨q, N, e⟩ : QueueState)
        = enqueueAll (p2 :: rest) (enqueue p.1 p.2 ⟨q, N, e⟩) from rfl]
    rw [enqueue_no_flush p.1 p.2 q N e (by omega)]
    rw [enqueueAll_fill (p2 :: rest) (q ++ [(⟨p.1.id, p.1, p.2⟩ : QueueItem)]) N e
      (by simp) (by simp; omega)]
    simp

theorem buildTree_singleton (bh : List Nat → List Nat) (sh : String → List Nat)
    (d : ProcessedSensorData) (hd : d.dataHash ≠ "") :
    buildTree bh sh [d] =
      ⟨"0x" ++ hexEncode (hexBytes d.dataHash), [hexBytes d.dataHash],
        [(d.dataHash, [])]⟩ := by
  have hdb : (d.dataHash == "") = false := beq_eq_false_iff_ne.mpr hd
  simp [buildTree, leafOf, fingerprintOf, rootBytes, buildLayers, buildLayersAux,
    getProofBytes, lastIdxOf, lastIdxAux, proofWalk, setKey, hdb]
  exact fun h => absurd h hd

/-! ## Claim theorems -/

/-- C10: verifyProof with an empty proof list returns true exactly when
the leaf string decodes (after the 0x strip) to the same bytes as the
root string; in particular any stored root verifies a leaf equal to it
with no proof elements. -/
theorem C10_empty_proof_verification (bh : List Nat → List Nat) (leaf root : String) :
    verifyProof bh leaf [] root = true ↔ hexBytes leaf = hexBytes root := by
  simp [verifyProof, verifyFold]

/-- C4: buildTree on the empty reading sequence does not fail; it
returns the degenerate root "0x" (hex of the empty buffer) and an empty
proof map, for any hash functions. -/
theorem C4_empty_buildTree_degenerate_root (bh : List Nat → List Nat)
    (sh : String → List Nat) :
    (buildTree bh sh []).root = "0x" ∧ (buildTree bh sh []).proofs = [] :=
  ⟨rfl, rfl⟩

/-- C2: two readings identical in serialNumber, sensorId, timestamp and
readings mapping (the mappings are permutations of each other) receive
different fingerprints when the measurement keys were inserted in a
different order, because JSON.stringify serializes keys in insertion
order and the serialized texts differ. -/
theorem C2_fingerprint_depends_on_key_order :
    cexTH.readings.Perm cexHT.readings
    ∧ cexTH.serialNumber = cexHT.serialNumber
    ∧ cexTH.sensorId = cexHT.sensorId
    ∧ cexTH.timestamp = cexHT.timestamp
    ∧ createDataHash mStrHash cexTH ≠ createDataHash mStrHash cexHT := by
  refine ⟨by decide, rfl, rfl, rfl, by decide⟩

/-- C3: when the relayer call fails during rollup of a batch — a
ready-mode relayer (wallet and contract present) whose ethers round trip
raises, rethrown by submitMerkleRoot's catch — the registry entry is
indeed left with an empty transaction reference, but the batch is not
appended to the pending-submission backlog: the rethrown error is
swallowed inside submitToBlockchain, processRollup's catch never runs,
and the backlog stays empty. -/
theorem C3_relayer_failure_leaves_backlog_empty :
    (processRollup mByteHash mStrHash readyRelayer mEthersId none 150 200
        cexBatch {}).pendingBatches = []
    ∧ (getBatch "b1" (processRollup mByteHash mStrHash readyRelayer mEthersId none 150 200
        cexBatch {}).db).map (fun e => e.txHash) = some "" := by
  refine ⟨by decide, by decide⟩

/-- C7 counterexample: updateBatchTx called a second time with a
different transaction reference overwrites the already-set non-empty
reference, refuting the claim that a set reference is never overwritten. -/
theorem C7_counterexample :
    (getBatch "b1" (updateBatchTx "b1" "0xbbbb" 6 (updateBatchTx "b1" "0xaaaa" 5
        (saveBatch cexEntry [] none emptyDB)))).map (fun e => e.txHash) = some "0xbbbb"
    ∧ ("0xbbbb" : String) ≠ "0xaaaa" := by
  refine ⟨by decide, by decide⟩

/-- C7 amended: updateBatchTx on an existing registry entry sets its
transaction reference to the given value unconditionally, whatever the
previous value was; no write-once guard exists. -/
theorem C7_amended_updateBatchTx_overwrites (db : TimeSeriesDB) (batchId tx : String)
    (e : BatchRegistryEntry) (now : Int)
    (h : List.lookup batchId db.batches = some e) :
    getBatch batchId (updateBatchTx batchId tx now db)
      = some { e with txHash := tx, submittedAt := now } := by
  unfold updateBatchTx
  rw [h]
  exact lookup_setKey_self db.batches batchId _

/-- Witness for C7 amended at a concrete database. -/
theorem C7_amended_witness :
    List.lookup "b1" (saveBatch cexEntry [] none emptyDB).batches = some cexEntry
    ∧ getBatch "b1" (updateBatchTx "b1" "0xcccc" 7 (saveBatch cexEntry [] none emptyDB))
      = some { cexEntry with txHash := "0xcccc", submittedAt := 7 } :=
  ⟨by decide,
    C7_amended_updateBatchTx_overwrites (saveBatch cexEntry [] none emptyDB)
      "b1" "0xcccc" cexEntry 7 (by decide)⟩

/-- C1 counterexample: a two-leaf tree over fingerprints 0x02 and 0x01.
buildTree hashes the byte-wise sorted pair, but verifyProof reassigns
positions by proof-index parity without sorting, so the generated proof
for leaf 0x02 fails to verify against the tree's own root. -/
theorem C1_counterexample :
    verifyProof mByteHash "0x02"
      (((buildTree mByteHash mStrHash [cexA, cexB]).proofs.lookup "0x02").getD [])
      (buildTree mByteHash mStrHash [cexA, cexB]).root = false := by
  decide

/-- C1 amended: for a single-reading sequence with a fingerprint, the
generated (empty) proof verifies against the built root, and fails for
any altered root that decodes to different bytes; for longer sequences
the claim fails (see the counterexample) because construction sorts
sibling pairs while verification assigns positions by index parity. -/
theorem C1_amended_singleton (bh : List Nat → List Nat) (sh : String → List Nat)
    (d : ProcessedSensorData) (hd : d.dataHash ≠ "") (root' : String)
    (hroot : hexBytes root' ≠ hexBytes d.dataHash) :
    (buildTree bh sh [d]).proofs.lookup d.dataHash = some []
    ∧ verifyProof bh d.dataHash
        (((buildTree bh sh [d]).proofs.lookup d.dataHash).getD [])
        (buildTree bh sh [d]).root = true
    ∧ verifyProof bh d.dataHash
        (((buildTree bh sh [d]).proofs.lookup d.dataHash).getD []) root' = false := by
  rw [buildTree_singleton bh sh d hd]
  have hlk : (([(d.dataHash, ([] : List String))]).lookup d.dataHash) = some [] := by
    simp [List.lookup]
  refine ⟨hlk, ?_, ?_⟩
  · rw [hlk]
    simp only [Option.getD_some]
    unfold verifyProof
    simp only [List.map_nil]
    rw [show verifyFold bh (hexBytes d.dataHash) 0 [] = hexBytes d.dataHash from rfl]
    rw [hexBytes_0x_hexEncode _ (hexBytes_lt d.dataHash)]
    exact beq_self_eq_true _
  · rw [hlk]
    simp only [Option.getD_some]
    unfold verifyProof
    simp only [List.map_nil]
    rw [show verifyFold bh (hexBytes d.dataHash) 0 [] = hexBytes d.dataHash from rfl]
    exact beq_eq_false_iff_ne.mpr (fun h => hroot h.symm)

/-- Witness for C1 amended at a concrete reading and altered root. -/
theorem C1_amended_witness :
    cexA.dataHash ≠ ""
    ∧ hexBytes "0x05" ≠ hexBytes cexA.dataHash
    ∧ ((buildTree mByteHash mStrHash [cexA]).proofs.lookup cexA.dataHash = some []
      ∧ verifyProof mByteHash cexA.dataHash
          (((buildTree mByteHash mStrHash [cexA]).proofs.lookup cexA.dataHash).getD [])
          (buildTree mByteHash mStrHash [cexA]).root = true
      ∧ verifyProof mByteHash cexA.dataHash
          (((buildTree mByteHash mStrHash [cexA]).proofs.lookup cexA.dataHash).getD [])
          "0x05" = false) :=
  ⟨by decide, by decide,
    C1_amended_singleton mByteHash mStrHash cexA (by decide) "0x05" (by decide)⟩

theorem submitToBlockchain_fail_db (eid : String → String) (nowMs : Int)
    (b : DataBatch) (s : EngineState) :
    (submitToBlockchain readyRelayer eid none nowMs b s).1 = none
    ∧ (submitToBlockchain readyRelayer eid none nowMs b s).2.db = s.db := by
  unfold submitToBlockchain submitBegin
  by_cases h : s.isSubmitting
  · simp [h]
  · simp only [h, Bool.false_eq_true, if_false]
    unfold submitEnd relayerSubmitMerkleRoot readyRelayer drainOne
    constructor
    · simp
    · cases hp : s.pendingBatches <;> simp

/-- C5: processRollup persists the batch before the ledger submission
step, so that when the relayer call fails (a ready-mode relayer whose
network round trip raises) the batch's registry entry — with its Merkle
root, an empty transaction reference and a zero submission time — its
raw readings and its proofs map are all still queryable by batch id
afterwards, from any starting engine state. -/
theorem C5_store_before_submit (bh : List Nat → List Nat) (sh : String → List Nat)
    (eid : String → String) (nowMs now : Int) (b : DataBatch) (s : EngineState) :
    getBatch b.batchId (processRollup bh sh readyRelayer eid none nowMs now b s).db
      = some ⟨b.batchId, (buildTree bh sh b.data).root, "", b.data.length, b.createdAt, 0⟩
    ∧ getBatchData b.batchId (processRollup bh sh readyRelayer eid none nowMs now b s).db
      = some b.data
    ∧ List.lookup b.batchId (processRollup bh sh readyRelayer eid none nowMs now b s).db.proofs
      = some (buildTree bh sh b.data).proofs := by
  have h1 := submitToBlockchain_fail_db eid nowMs (attachTree bh sh b)
    { s with db := storeBatch (attachTree bh sh b) s.db }
  unfold processRollup
  rcases hsub : submitToBlockchain readyRelayer eid none nowMs (attachTree bh sh b)
      { s with db := storeBatch (attachTree bh sh b) s.db } with ⟨r, s2⟩
  rw [hsub] at h1
  simp only at h1
  obtain ⟨hr, hdb⟩ := h1
  subst hr
  dsimp only
  rw [hsub]
  show getBatch b.batchId s2.db = _ ∧ getBatchData b.batchId s2.db = _
    ∧ List.lookup b.batchId s2.db.proofs = _
  rw [hdb]
  refine ⟨?_, ?_, ?_⟩
  · show List.lookup b.batchId
        (setKey s.db.batches (entryOf (attachTree bh sh b)).batchId
          (entryOf (attachTree bh sh b))) = _
    rw [show (entryOf (attachTree bh sh b)).batchId = b.batchId from rfl]
    rw [lookup_setKey_self]
    rfl
  · show List.lookup b.batchId
        (setKey s.db.batchData (entryOf (attachTree bh sh b)).batchId
          (attachTree bh sh b).data) = _
    rw [show (entryOf (attachTree bh sh b)).batchId = b.batchId from rfl]
    rw [lookup_setKey_self]
    rfl
  · show List.lookup b.batchId
        (setKey s.db.proofs (entryOf (attachTree bh sh b)).batchId
          (buildTree bh sh b.data).proofs) = _
    rw [show (entryOf (attachTree bh sh b)).batchId = b.batchId from rfl]
    rw [lookup_setKey_self]

/-- C9: with capacity N and an empty queue, enqueueing exactly N
readings (no timer involved) emits exactly one batch, containing exactly
those N readings in enqueue order, and leaves the queue empty. -/
theorem C9_size_trigger (N : Nat) (ds : List (ProcessedSensorData × Int))
    (h1 : 0 < N) (h2 : ds.length = N) :
    enqueueAll ds ⟨[], N, []⟩ = ⟨[], N, [ds.map Prod.fst]⟩ := by
  have hne : ds ≠ [] := by
    intro h
    rw [h] at h2
    simp at h2
    omega
  have h3 := enqueueAll_fill ds [] N [] hne (by simpa using h2)
  simpa using h3

/-- Witness for C9 at capacity 3 with three concrete readings. -/
theorem C9_size_trigger_witness :
    0 < 3 ∧ ([(cexA, (1 : Int)), (cexB, 2), (cexTH, 3)].length = 3)
    ∧ enqueueAll [(cexA, (1 : Int)), (cexB, 2), (cexTH, 3)] ⟨[], 3, []⟩
      = ⟨[], 3, [[(cexA, (1 : Int)), (cexB, 2), (cexTH, 3)].map Prod.fst]⟩ :=
  ⟨by decide, by decide,
    C9_size_trigger 3 [(cexA, (1 : Int)), (cexB, 2), (cexTH, 3)] (by decide) (by decide)⟩

/-- C8: listBatches is sorted newest-first by creation time (for any
limit and offset); queryBySensor returns exactly the stored readings
with the sensor id (a permutation of the filter), sorted by timestamp
descending; queryByTimeRange returns exactly the stored readings inside
the range, sorted by timestamp ascending. -/
theorem C8_query_sortedness (db : TimeSeriesDB) (limit offset : Nat) (sid : String)
    (t0 t1 : Int) :
    (listBatches limit offset db).Pairwise (fun a b => b.createdAt ≤ a.createdAt)
    ∧ (queryBySensor sid db).Pairwise (fun a b => b.timestamp ≤ a.timestamp)
    ∧ (queryBySensor sid db).Perm
        ((allReadings db).filter (fun i => i.sensorId == sid))
    ∧ (queryByTimeRange t0 t1 db).Pairwise (fun a b => a.timestamp ≤ b.timestamp)
    ∧ (queryByTimeRange t0 t1 db).Perm
        ((allReadings db).filter
          (fun i => decide (t0 ≤ i.timestamp) && decide (i.timestamp ≤ t1))) := by
  refine ⟨?_, ?_, ?_, ?_, ?_⟩
  · have hs := sortBy_pairwise
      (fun (a b : BatchRegistryEntry) => decide (b.createdAt ≤ a.createdAt))
      (fun a b c hab hbc => by
        simp only [decide_eq_true_eq] at hab hbc ⊢
        omega)
      (fun a b => by
        simp only [decide_eq_true_eq]
        exact Int.le_total b.createdAt a.createdAt)
      (db.batches.map Prod.snd)
    unfold listBatches
    exact ((hs.sublist (List.drop_sublist _ _)).sublist (List.take_sublist _ _)).imp
      (fun h => of_decide_eq_true h)
  · have hs := sortBy_pairwise
      (fun (a b : ProcessedSensorData) => decide (b.timestamp ≤ a.timestamp))
      (fun a b c hab hbc => by
        simp only [decide_eq_true_eq] at hab hbc ⊢
        omega)
      (fun a b => by
        simp only [decide_eq_true_eq]
        exact Int.le_total b.timestamp a.timestamp)
      ((allReadings db).filter (fun i => i.sensorId == sid))
    exact hs.imp (fun h => of_decide_eq_true h)
  · exact sortBy_perm _ _
  · have hs := sortBy_pairwise
      (fun (a b : ProcessedSensorData) => decide (a.timestamp ≤ b.timestamp))
      (fun a b c hab hbc => by
        simp only [decide_eq_true_eq] at hab hbc ⊢
        omega)
      (fun a b => by
        simp only [decide_eq_true_eq]
        exact Int.le_total a.timestamp b.timestamp)
      ((allReadings db).filter
        (fun i => decide (t0 ≤ i.timestamp) && decide (i.timestamp ≤ t1)))
    exact hs.imp (fun h => of_decide_eq_true h)
  · exact sortBy_perm _ _

theorem attachTree_root_ne (bh : List Nat → List Nat) (sh : String → List Nat)
    (b : DataBatch) : (attachTree bh sh b).merkleRoot ≠ "" := by
  show ("0x" ++ hexEncode (rootBytes bh (b.data.map (leafOf sh)))) ≠ ""
  exact append_0x_ne_empty _

theorem updateBatchTx_existing (db : TimeSeriesDB) (id tx : String) (now : Int)
    (e : BatchRegistryEntry) (h : List.lookup id db.batches = some e) :
    getBatch id (updateBatchTx id tx now db)
      = some { e with txHash := tx, submittedAt := now } := by
  unfold updateBatchTx
  rw [h]
  exact lookup_setKey_self db.batches id _

theorem getBatch_updateBatchTx_ne (db : TimeSeriesDB) (id tx : String) (now : Int)
    (k : String) (h : k ≠ id) :
    getBatch k (updateBatchTx id tx now db) = getBatch k db := by
  unfold updateBatchTx getBatch
  cases hl : List.lookup id db.batches with
  | none => rfl
  | some e => exact lookup_setKey_ne db.batches id k _ h

theorem inflightPhase2_eq (bh : List Nat → List Nat) (sh : String → List Nat)
    (rs : RelayerState) (eid : String → String) (A B : DataBatch)
    (netB : Option String) (nowMsB nowB : Int) :
    inflightPhase2 bh sh rs eid A B netB nowMsB nowB =
      ⟨true, [attachTree bh sh B], [],
        storeBatch (attachTree bh sh B) (storeBatch (attachTree bh sh A) emptyDB)⟩ := rfl

theorem inflightPhase3_eq (bh : List Nat → List Nat) (sh : String → List Nat)
    (eid : String → String) (A B : DataBatch) (netB : Option String)
    (nowMsB nowB : Int) (txA : String) (nowMsA nowA : Int) :
    inflightPhase3 bh sh readyRelayer eid A B netB nowMsB nowB (some txA) nowMsA nowA =
      ⟨false, [], [attachTree bh sh B],
        updateBatchTx A.batchId txA nowA
          (storeBatch (attachTree bh sh B) (storeBatch (attachTree bh sh A) emptyDB))⟩ := by
  unfold inflightPhase3
  rw [inflightPhase2_eq]
  unfold submitEnd relayerSubmitMerkleRoot readyRelayer
  dsimp only
  rw [beq_eq_false_iff_ne.mpr (attachTree_root_ne bh sh A)]
  simp [drainOne]
  rfl

theorem inflightPhase4_db (bh : List Nat → List Nat) (sh : String → List Nat)
    (eid : String → String) (A B : DataBatch) (netB : Option String)
    (nowMsB nowB : Int) (txA : String) (nowMsA nowA : Int)
    (netB2 : Option String) (nowMsB2 : Int) :
    (inflightPhase4 bh sh readyRelayer eid A B netB nowMsB nowB (some txA) nowMsA nowA
        netB2 nowMsB2).db =
      (inflightPhase3 bh sh readyRelayer eid A B netB nowMsB nowB (some txA) nowMsA nowA).db := by
  unfold inflightPhase4
  rw [inflightPhase3_eq]
  simp [submitToBlockchain, submitBegin, submitEnd, drainOne]

/-- C6 counterexample: in the modelled schedule with a ready-mode
relayer, batch B is drained from the backlog after A completes and B's
drained submission succeeds — the network confirms the reference
0xbeef — yet B's registry entry still carries the empty transaction
reference, because the scheduled setTimeout callback discards
submitToBlockchain's return value; the claim's assertion that B's
reference is then set on success is false. -/
theorem C6_counterexample :
    (getBatch "bB"
        (inflightPhase4 mByteHash mStrHash readyRelayer mEthersId batchA batchB
          none 65 70 (some "0xaaaa") 75 80 (some "0xbeef") 85).db).map
      (fun e => e.txHash) = some ""
    ∧ ("" : String) ≠ "0xbeef" :=
  ⟨by decide, by decide⟩

/-- C6 amended: with a ready-mode relayer, submitting B while A's
submission is in flight appends B to the backlog with its registry
reference empty; when A's round trip confirms txA, A's reference is set,
B is drained from the backlog into the scheduled follow-up submission
with its reference still empty; and the reference stays empty even after
the drained submission of B succeeds, because the scheduled callback
drops the returned reference. -/
theorem C6_amended_single_inflight (bh : List Nat → List Nat) (sh : String → List Nat)
    (eid : String → String) (A B : DataBatch) (netB : Option String)
    (nowMsB nowB : Int) (txA : String) (nowMsA nowA : Int) (txB : String)
    (nowMsB2 : Int) (hAB : A.batchId ≠ B.batchId) :
    (inflightPhase2 bh sh readyRelayer eid A B netB nowMsB nowB).pendingBatches
      = [attachTree bh sh B]
    ∧ (getBatch B.batchId (inflightPhase2 bh sh readyRelayer eid A B netB nowMsB nowB).db).map
        (fun e => e.txHash) = some ""
    ∧ (inflightPhase3 bh sh readyRelayer eid A B netB nowMsB nowB
        (some txA) nowMsA nowA).pendingBatches = []
    ∧ (inflightPhase3 bh sh readyRelayer eid A B netB nowMsB nowB
        (some txA) nowMsA nowA).scheduled = [attachTree bh sh B]
    ∧ (getBatch A.batchId (inflightPhase3 bh sh readyRelayer eid A B netB nowMsB nowB
        (some txA) nowMsA nowA).db).map (fun e => e.txHash) = some txA
    ∧ (getBatch B.batchId (inflightPhase3 bh sh readyRelayer eid A B netB nowMsB nowB
        (some txA) nowMsA nowA).db).map (fun e => e.txHash) = some ""
    ∧ (getBatch B.batchId (inflightPhase4 bh sh readyRelayer eid A B netB nowMsB nowB
        (some txA) nowMsA nowA (some txB) nowMsB2).db).map
        (fun e => e.txHash) = some "" := by
  have hBA : B.batchId ≠ A.batchId := fun h => hAB h.symm
  have hlkB : List.lookup B.batchId
      (storeBatch (attachTree bh sh B) (storeBatch (attachTree bh sh A) emptyDB)).batches
      = some (entryOf (attachTree bh sh B)) := by
    show List.lookup B.batchId
      (setKey (storeBatch (attachTree bh sh A) emptyDB).batches
        (entryOf (attachTree bh sh B)).batchId (entryOf (attachTree bh sh B))) = _
    rw [show (entryOf (attachTree bh sh B)).batchId = B.batchId from rfl]
    exact lookup_setKey_self _ _ _
  have hlkA : List.lookup A.batchId
      (storeBatch (attachTree bh sh B) (storeBatch (attachTree bh sh A) emptyDB)).batches
      = some (entryOf (attachTree bh sh A)) := by
    show List.lookup A.batchId
      (setKey (setKey emptyDB.batches (entryOf (attachTree bh sh A)).batchId
          (entryOf (attachTree bh sh A)))
        (entryOf (attachTree bh sh B)).batchId (entryOf (attachTree bh sh B))) = _
    rw [show (entryOf (attachTree bh sh B)).batchId = B.batchId from rfl,
      show (entryOf (attachTree bh sh A)).batchId = A.batchId from rfl]
    rw [lookup_setKey_ne _ _ _ _ hAB]
    exact lookup_setKey_self _ _ _
  refine ⟨?_, ?_, ?_, ?_, ?_, ?_, ?_⟩
  · rw [inflightPhase2_eq]
  · rw [inflightPhase2_eq]
    show (List.lookup B.batchId
      (storeBatch (attachTree bh sh B) (storeBatch (attachTree bh sh A) emptyDB)).batches).map
        (fun e => e.txHash) = some ""
    rw [hlkB]
    rfl
  · rw [inflightPhase3_eq]
  · rw [inflightPhase3_eq]
  · rw [inflightPhase3_eq]
    show (getBatch A.batchId (updateBatchTx A.batchId txA nowA
        (storeBatch (attachTree bh sh B) (storeBatch (attachTree bh sh A) emptyDB)))).map
      (fun e => e.txHash) = some txA
    rw [updateBatchTx_existing _ _ _ _ _ hlkA]
    rfl
  · rw [inflightPhase3_eq]
    show (getBatch B.batchId (updateBatchTx A.batchId txA nowA
        (storeBatch (attachTree bh sh B) (storeBatch (attachTree bh sh A) emptyDB)))).map
      (fun e => e.txHash) = some ""
    rw [getBatch_updateBatchTx_ne _ _ _ _ _ hBA]
    show (List.lookup B.batchId
      (storeBatch (attachTree bh sh B) (storeBatch (attachTree bh sh A) emptyDB)).batches).map
        (fun e => e.txHash) = some ""
    rw [hlkB]
    rfl
  · rw [inflightPhase4_db, inflightPhase3_eq]
    show (getBatch B.batchId (updateBatchTx A.batchId txA nowA
        (storeBatch (attachTree bh sh B) (storeBatch (attachTree bh sh A) emptyDB)))).map
      (fun e => e.txHash) = some ""
    rw [getBatch_updateBatchTx_ne _ _ _ _ _ hBA]
    show (List.lookup B.batchId
      (storeBatch (attachTree bh sh B) (storeBatch (attachTree bh sh A) emptyDB)).batches).map
        (fun e => e.txHash) = some ""
    rw [hlkB]
    rfl

/-- Witness for C6 amended at concrete batches with distinct ids. -/
theorem C6_amended_witness :
    batchA.batchId ≠ batchB.batchId
    ∧ ((inflightPhase2 mByteHash mStrHash readyRelayer mEthersId batchA batchB
          none 65 70).pendingBatches = [attachTree mByteHash mStrHash batchB]
      ∧ (getBatch batchB.batchId
          (inflightPhase2 mByteHash mStrHash readyRelayer mEthersId batchA batchB
            none 65 70).db).map (fun e => e.txHash) = some ""
      ∧ (inflightPhase3 mByteHash mStrHash readyRelayer mEthersId batchA batchB
          none 65 70 (some "0xaaaa") 75 80).pendingBatches = []
      ∧ (inflightPhase3 mByteHash mStrHash readyRelayer mEthersId batchA batchB
          none 65 70 (some "0xaaaa") 75 80).scheduled
        = [attachTree mByteHash mStrHash batchB]
      ∧ (getBatch batchA.batchId
          (inflightPhase3 mByteHash mStrHash readyRelayer mEthersId batchA batchB
            none 65 70 (some "0xaaaa") 75 80).db).map
          (fun e => e.txHash) = some "0xaaaa"
      ∧ (getBatch batchB.batchId
          (inflightPhase3 mByteHash mStrHash readyRelayer mEthersId batchA batchB
            none 65 70 (some "0xaaaa") 75 80).db).map
          (fun e => e.txHash) = some ""
      ∧ (getBatch batchB.batchId
          (inflightPhase4 mByteHash mStrHash readyRelayer mEthersId batchA batchB
            none 65 70 (some "0xaaaa") 75 80 (some "0xcafe") 85).db).map
          (fun e => e.txHash) = some "") :=
  ⟨by decide,
    C6_amended_single_inflight mByteHash mStrHash mEthersId batchA batchB none 65 70
      "0xaaaa" 75 80 "0xcafe" 85 (by decide)⟩

end AgriCredit
